import Mathlib

/-!
Shallow embedding of the event/waiter signalling core
(`h2o/kernel/src/sched/ipc.rs`), the task scheduling state machine
(`h2o/kernel/src/sched/task/sm.rs`) and the capability checks of the
IPC syscalls of the oceanic kernel, with proofs of the specified
properties.  Machine words (`usize`) are modelled as `Nat`; side effects
on waiters (the `on_notify` / `on_cancel` trait calls) are modelled as an
explicit trace of callback invocations returned by each operation.
-/

namespace Oceanic

/-- bitwise AND-NOT on machine words, `a & !b`.  Every bit of `a &&& b` is a
bit of `a`, so XOR-ing it away clears exactly the bits of `a` that are set in
`b`; this keeps the definition kernel-computable.  `testBit_andNot` below
checks it against the bitwise meaning. -/
def andNot (a b : Nat) : Nat := a ^^^ (a &&& b)

/-- signal update of `Event::notify_impl`: `new = (prev & !clear) | set`. -/
def newSignal (prev clear set : Nat) : Nat := andNot prev clear ||| set

/-- trigger mode of a waiter (`cpu::arch::apic::TriggerMode`), as used by
`WaiterData`: edge- or level-triggered. -/
inductive TriggerMode
  | Edge
  | Level
deriving DecidableEq

/-- the `WaiterData` value type of `ipc.rs`: a trigger mode and the desired
signal mask. -/
structure WaiterData where
  trigger_mode : TriggerMode
  signal : Nat
deriving DecidableEq

/-- `WaiterData::can_signal`: an edge-triggered waiter never matches on the
registration check (`on_wait = true`); otherwise the match rule is
`self.signal & !signal == 0`. -/
def WaiterData.can_signal (wd : WaiterData) (signal : Nat) (on_wait : Bool) : Bool :=
  if on_wait ∧ wd.trigger_mode = TriggerMode.Edge then false
  else decide (andNot wd.signal signal = 0)

/-- a registered waiter: the `Arc<dyn Waiter>` trait object, identified (as in
`Event::unwait`, which compares `Arc` data pointers) by an abstract identity
`id`, together with its `WaiterData`. -/
structure Waiter where
  id : Nat
  waiter_data : WaiterData
deriving DecidableEq

/-- a callback invocation on a waiter: either `Waiter::on_notify` or
`Waiter::on_cancel`, with the signal value passed to it. -/
inductive Callback
  | on_notify (w : Waiter) (signal : Nat)
  | on_cancel (w : Waiter) (signal : Nat)
deriving DecidableEq

/-- `Waiter::try_on_notify`: evaluates `can_signal` and, when it holds,
invokes `on_notify(signal)`; returns whether the waiter matched, together
with the trace of callbacks invoked. -/
def Waiter.try_on_notify (w : Waiter) (signal : Nat) (on_wait : Bool) :
    Bool × List Callback :=
  let ret := w.waiter_data.can_signal signal on_wait
  (ret, if ret then [Callback.on_notify w signal] else [])

/-- the `EventData` state of an `Event`: the waiter list and the atomic
signal word. -/
structure EventData where
  waiters : List Waiter
  signal : Nat
deriving DecidableEq

/-- `EventData::new`. -/
def EventData.new (init_signal : Nat) : EventData :=
  { waiters := [], signal := init_signal }

/-- result of an `Event` operation: the updated event state, the trace of
waiter callbacks the operation invoked (in invocation order), and the
operation's return value. -/
structure EffResult (ρ : Type) where
  state : EventData
  calls : List Callback
  ret : ρ
deriving DecidableEq

/-- `Iterator::position` over a list, as used in `Event::unwait`: index of
the first element satisfying the predicate. -/
def position (p : α → Bool) : List α → Option Nat
  | [] => none
  | x :: xs => if p x then some 0 else (position p xs).map (· + 1)

/-- `Vec::swap_remove(pos)`: the element at `pos` is replaced by the last
element and the last slot is dropped (for in-range `pos`; `swap_remove`
panics otherwise, and `unwait` only calls it with an index found by
`position`). -/
def swapRemove (l : List α) (pos : Nat) : List α :=
  match l.getLast? with
  | none => l
  | some last => (l.dropLast).set pos last

/-- the `waiters.retain(|waiter| !waiter.try_on_notify(.., signal, false))`
loop of `Event::notify_impl`: keeps exactly the waiters whose
`try_on_notify` returns `false`, recording the `on_notify` calls made for
the removed ones in list order. -/
def retainNotify (signal : Nat) : List Waiter → List Waiter × List Callback
  | [] => ([], [])
  | w :: rest =>
    let r := w.try_on_notify signal false
    let t := retainNotify signal rest
    (if r.1 then t.1 else w :: t.1, r.2 ++ t.2)

/-- `Event::wait_impl`: read the signal; if `try_on_notify` with the
registration flag succeeds, return (the callback has fired); otherwise push
the waiter onto the list. -/
def EventData.wait_impl (e : EventData) (waiter : Waiter) : EffResult Unit :=
  let signal := e.signal
  let r := waiter.try_on_notify signal true
  if r.1 then ⟨e, r.2, ()⟩
  else ⟨{ e with waiters := e.waiters ++ [waiter] }, r.2, ()⟩

/-- `Event::unwait`: read the signal, find the waiter by identity and
`swap_remove` it if present; returns whether it was found and the signal
read at the start of the call.  No waiter callback is invoked. -/
def EventData.unwait (e : EventData) (waiter : Waiter) : EffResult (Bool × Nat) :=
  let signal := e.signal
  match position (fun w => w.id == waiter.id) e.waiters with
  | some pos => ⟨{ e with waiters := swapRemove e.waiters pos }, [], (true, signal)⟩
  | none => ⟨e, [], (false, signal)⟩

/-- `Event::cancel`: read the signal, take the whole waiter list and invoke
`on_cancel` on every taken waiter with that signal. -/
def EventData.cancel (e : EventData) : EffResult Unit :=
  let signal := e.signal
  ⟨{ e with waiters := [] },
   e.waiters.map (fun w => Callback.on_cancel w signal), ()⟩

/-- `Event::notify_impl`: compute `new = (prev & !clear) | set` (the CAS
retry loop of the source always succeeds in this sequential model); return
without touching the list if `prev == new` or if `prev & new == new` (no
newly-set bit); otherwise retain only the waiters that still fail to match
the new signal, notifying the removed ones. -/
def EventData.notify_impl (e : EventData) (clear set : Nat) : EffResult Unit :=
  let prev := e.signal
  let new := newSignal prev clear set
  if prev = new then ⟨e, [], ()⟩
  else if prev &&& new = new then ⟨{ e with signal := new }, [], ()⟩
  else
    let r := retainNotify new e.waiters
    ⟨{ signal := new, waiters := r.1 }, r.2, ()⟩

/-- sequential application of a list of `notify(clear, set)` calls to an
event. -/
def applyNotifies (e : EventData) : List (Nat × Nat) → EventData
  | [] => e
  | c :: rest => applyNotifies (e.notify_impl c.1 c.2).state rest

/-- the `Context` owned by a task (`sm.rs`): thread identity, address space,
kernel stack, extended register frame, current cpu and accumulated runtime.
The externally defined resource types (`Tid`, `Arc<Space>`, `ctx::Kstack`,
`ctx::ExtFrame`, `Duration`) are abstracted to opaque identifiers, which is
enough to express that a transition moves the very same resources. -/
structure Context where
  tid : Nat
  space : Nat
  kstack : Nat
  ext_frame : Nat
  cpu : Nat
  runtime : Nat
deriving DecidableEq

/-- the `RunningState` single-word encoding of `sm.rs`: a union of an
`Instant` and an `i128` word.  Modelled from the spec: `Instant`
(`cpu::time`) is not under `src/`; per the spec's encoding description a
timestamp is identified with its machine-word value, so the union is one
`Int` field read either way. -/
structure RunningState where
  value : Int
deriving DecidableEq

/-- `RunningState::NOT_RUNNING_VALUE`. -/
def RunningState.NOT_RUNNING_VALUE : Int := 0

/-- `RunningState::NEED_RESCHED_VALUE`. -/
def RunningState.NEED_RESCHED_VALUE : Int := -1

/-- `RunningState::NOT_RUNNING`. -/
def RunningState.NOT_RUNNING : RunningState := ⟨RunningState.NOT_RUNNING_VALUE⟩

/-- `RunningState::NEED_RESCHED`. -/
def RunningState.NEED_RESCHED : RunningState := ⟨RunningState.NEED_RESCHED_VALUE⟩

/-- `RunningState::running(start_time)`: stores the timestamp in the word. -/
def RunningState.running (start_time : Int) : RunningState := ⟨start_time⟩

/-- `RunningState::start_time`: `None` on the two sentinel values, otherwise
the word read back as the timestamp. -/
def RunningState.start_time (r : RunningState) : Option Int :=
  if r.value = RunningState.NOT_RUNNING_VALUE ∨
      r.value = RunningState.NEED_RESCHED_VALUE then none
  else some r.value

/-- `RunningState::needs_resched`. -/
def RunningState.needs_resched (r : RunningState) : Bool :=
  decide (r.value = RunningState.NEED_RESCHED_VALUE)

/-- `RunningState::not_running`. -/
def RunningState.not_running (r : RunningState) : Bool :=
  decide (r.value = RunningState.NOT_RUNNING_VALUE)

/-- the `Init` task state of `sm.rs`. -/
structure Init where
  ctx : Context
deriving DecidableEq

/-- the `Ready` task state of `sm.rs`. -/
structure Ready where
  ctx : Context
  running_state : RunningState
  time_slice : Nat
deriving DecidableEq

/-- the `Blocked` task state of `sm.rs`. -/
structure Blocked where
  ctx : Context
  block_desc : String
deriving DecidableEq

/-- `IntoReady::into_ready` for `Init`: reuses the context, sets its cpu,
and starts `Ready` with `RunningState::NOT_RUNNING` and the given time
slice. -/
def Init.into_ready (this : Init) (cpu : Nat) (time_slice : Nat) : Ready :=
  { ctx := { this.ctx with cpu := cpu }
    running_state := RunningState.NOT_RUNNING
    time_slice := time_slice }

/-- `Ready::block`: moves the context into `Blocked`, recording the reason
string. -/
def Ready.block (this : Ready) (block_desc : String) : Blocked :=
  { ctx := this.ctx, block_desc := block_desc }

/-- `IntoReady::into_ready` for `Blocked`: moves the context back, setting
only its cpu, with `RunningState::NOT_RUNNING` and the given time slice. -/
def Blocked.into_ready (this : Blocked) (cpu : Nat) (time_slice : Nat) : Ready :=
  { ctx := { this.ctx with cpu := cpu }
    running_state := RunningState.NOT_RUNNING
    time_slice := time_slice }

/-- kernel-side resources touched by `Ready::exit`.  Modelled from the spec:
`tid::deallocate`, the `WaitCell` return-value cell and `idle::CTX_DROPPER`
are not under `src/`; per the spec, exit deallocates the task identity,
stores the return value in the task's shared return-value cell, and queues
the context on a deferred-reclamation queue. -/
structure SchedState where
  allocated_tids : List Nat
  ret_cells : Nat → Option Nat
  ctx_dropper : List Context

/-- `Ready::exit(retval)`: deallocate the tid, store `retval` in the task's
return-value cell, and push the context onto the deferred-reclamation
queue. -/
def Ready.exit (this : Ready) (retval : Nat) (k : SchedState) : SchedState :=
  { allocated_tids := k.allocated_tids.erase this.ctx.tid
    ret_cells := fun t => if t = this.ctx.tid then some retval else k.ret_cells t
    ctx_dropper := k.ctx_dropper ++ [this.ctx] }

/-- a task's lifecycle state: one of the three state structs of `sm.rs`, or
terminated. -/
inductive TaskState
  | init (i : Init)
  | ready (r : Ready)
  | blocked (b : Blocked)
  | exited

/-- the transition relation of the task state machine: exactly one
constructor per transition function defined in `sm.rs`
(`Init::into_ready`, `Ready::block`, `Blocked::into_ready`, `Ready::exit`);
transitions carry the kernel-side `SchedState` they act on. -/
inductive TaskStep : TaskState × SchedState → TaskState × SchedState → Prop
  | init_into_ready (i : Init) (cpu ts : Nat) (k : SchedState) :
      TaskStep (TaskState.init i, k) (TaskState.ready (i.into_ready cpu ts), k)
  | ready_block (r : Ready) (d : String) (k : SchedState) :
      TaskStep (TaskState.ready r, k) (TaskState.blocked (r.block d), k)
  | blocked_into_ready (b : Blocked) (cpu ts : Nat) (k : SchedState) :
      TaskStep (TaskState.blocked b, k) (TaskState.ready (b.into_ready cpu ts), k)
  | ready_exit (r : Ready) (retval : Nat) (k : SchedState) :
      TaskStep (TaskState.ready r, k) (TaskState.exited, r.exit retval k)

/-- error codes returned by the IPC syscalls, as named in `ipc.rs`.
`EINVAL` stands for the codes of failures the claims do not exercise
(null-handle check, unknown handle, bad user pointer; their exact codes
live in the `sv_call` error table, which is not under `src/`). -/
inductive Error
  | ESRCH
  | EPERM
  | EPIPE
  | ETIME
  | ENOENT
  | EINVAL
deriving DecidableEq

/-- capability bits of a handle.  Modelled from the spec: the `Feature`
bitflags type of `sv_call` is not under `src/`; only the WAIT/READ/WRITE
capabilities consulted by these syscalls are represented. -/
structure Features where
  wait : Bool
  read : Bool
  write : Bool
deriving DecidableEq

/-- a handle-table entry as seen by the syscalls: its capability bits and
whether `obj.event().upgrade()` still succeeds (the owning event has not
been destroyed). -/
structure Obj where
  features : Features
  event_alive : Bool
deriving DecidableEq

/-- the current task's handle space: `get_ref` lookup for plain objects and
`get::<Dispatcher>` lookup for dispatcher handles. -/
structure Space where
  objects : Nat → Option Obj
  dispatchers : Nat → Option Obj

/-- the `obj_wait` syscall body up to its capability and liveness checks:
the current task (absent ⇒ `ESRCH`), the handle lookup, the WAIT feature
check (`EPERM`), the event upgrade (`EPIPE`); the blocker's
`wait`/`detach` outcome is abstracted as the `waitRes` input, and a `false`
detach result becomes `ETIME`. -/
def obj_wait (cur : Option Space) (hdl : Nat)
    (waitRes : Except Error (Bool × Nat)) : Except Error Nat :=
  match cur with
  | none => Except.error Error.ESRCH
  | some space =>
    match space.objects hdl with
    | none => Except.error Error.EINVAL
    | some obj =>
      if !obj.features.wait then Except.error Error.EPERM
      else if !obj.event_alive then Except.error Error.EPIPE
      else
        match waitRes with
        | Except.error e => Except.error e
        | Except.ok (detach_ret, signal) =>
          if !detach_ret then Except.error Error.ETIME
          else Except.ok signal

/-- the `obj_await2` syscall body: null checks, current task, object and
dispatcher lookups, the WAIT check on the object and the WRITE check on the
dispatcher (both `EPERM`), the event upgrade (`EPIPE`), then
`disp.push(&event, waiter_data)` abstracted as the `push` input applied to
the constructed `WaiterData`. -/
def obj_await2 (cur : Option Space) (hdl : Nat) (level_triggered : Bool)
    (signal : Nat) (disp : Nat) (push : WaiterData → Nat) : Except Error Nat :=
  if hdl = 0 then Except.error Error.EINVAL
  else if disp = 0 then Except.error Error.EINVAL
  else
    match cur with
    | none => Except.error Error.ESRCH
    | some space =>
      match space.objects hdl with
      | none => Except.error Error.EINVAL
      | some obj =>
        match space.dispatchers disp with
        | none => Except.error Error.EINVAL
        | some dsp =>
          if !obj.features.wait then Except.error Error.EPERM
          else if !dsp.features.write then Except.error Error.EPERM
          else if !obj.event_alive then Except.error Error.EPIPE
          else
            Except.ok (push (WaiterData.mk
              (if level_triggered then TriggerMode.Level else TriggerMode.Edge)
              signal))

/-- the `disp_pop` syscall body: null check, user-pointer checks (validity
abstracted as booleans), current task, dispatcher lookup, the READ feature
check (`EPERM`), then `disp.pop()` abstracted as the `popRes` input
(`None` ⇒ `ENOENT`); on success the popped flag and result are written out
and the key returned. -/
def disp_pop (cur : Option Space) (disp : Nat) (canceled_ok result_ok : Bool)
    (popRes : Option (Bool × Nat × Nat)) : Except Error (Nat × Bool × Nat) :=
  if disp = 0 then Except.error Error.EINVAL
  else if !canceled_ok then Except.error Error.EINVAL
  else if !result_ok then Except.error Error.EINVAL
  else
    match cur with
    | none => Except.error Error.ESRCH
    | some space =>
      match space.dispatchers disp with
      | none => Except.error Error.EINVAL
      | some dsp =>
        if !dsp.features.read then Except.error Error.EPERM
        else
          match popRes with
          | none => Except.error Error.ENOENT
          | some (c, key, r) => Except.ok (key, c, r)

/-- concrete waiter used to exercise the list operations. -/
def sampleWaiterA : Waiter := ⟨0, ⟨TriggerMode.Edge, 0⟩⟩

/-- second concrete waiter. -/
def sampleWaiterB : Waiter := ⟨1, ⟨TriggerMode.Edge, 0⟩⟩

/-- third concrete waiter. -/
def sampleWaiterC : Waiter := ⟨2, ⟨TriggerMode.Edge, 0⟩⟩

/-- concrete event with three registered waiters. -/
def sampleEvent : EventData := ⟨[sampleWaiterA, sampleWaiterB, sampleWaiterC], 0⟩

/-- concrete task context. -/
def sampleContext : Context := ⟨1, 2, 3, 4, 5, 6⟩

/-- concrete ready task. -/
def sampleReady : Ready := ⟨sampleContext, RunningState.NOT_RUNNING, 7⟩

/-- concrete kernel-side scheduler resources. -/
def sampleSched : SchedState := ⟨[1, 8], fun _ => none, []⟩

/-- concrete handle space used to exercise the syscall checks: handle 1 is
an object without WAIT, handle 2 an object with WAIT whose event is dead,
handle 3 a live object with all capabilities, handle 4 a dispatcher without
WRITE or READ. -/
def sampleSpace : Space :=
  { objects := fun h =>
      if h = 1 then some ⟨⟨false, true, true⟩, true⟩
      else if h = 2 then some ⟨⟨true, true, true⟩, false⟩
      else if h = 3 then some ⟨⟨true, true, true⟩, true⟩
      else none
    dispatchers := fun h =>
      if h = 4 then some ⟨⟨true, false, false⟩, true⟩ else none }

/-! helper lemmas shared by the claim theorems -/

/-- sanity check: `andNot` agrees with the bitwise `a & !b`. -/
theorem testBit_andNot (a b i : Nat) :
    (andNot a b).testBit i = (a.testBit i && !(b.testBit i)) := by
  simp only [andNot, Nat.testBit_xor, Nat.testBit_land]
  cases a.testBit i <;> cases b.testBit i <;> rfl

/-- the registration-time check of `can_signal` succeeds exactly for a
level-triggered waiter whose required bits are all set. -/
theorem can_signal_on_wait (wd : WaiterData) (signal : Nat) :
    wd.can_signal signal true =
      decide (wd.trigger_mode = TriggerMode.Level ∧ andNot wd.signal signal = 0) := by
  unfold WaiterData.can_signal
  cases h : wd.trigger_mode <;> simp [h]

/-- the retain loop of `notify_impl` keeps exactly the non-matching waiters
and fires `on_notify` once, in order, for each matching one. -/
theorem retainNotify_eq (signal : Nat) (ws : List Waiter) :
    retainNotify signal ws =
      (ws.filter (fun w => !(w.waiter_data.can_signal signal false)),
       (ws.filter (fun w => w.waiter_data.can_signal signal false)).map
         (fun w => Callback.on_notify w signal)) := by
  induction ws with
  | nil => rfl
  | cons w rest ih =>
    simp only [retainNotify, Waiter.try_on_notify, ih, List.filter_cons]
    cases h : w.waiter_data.can_signal signal false <;> simp [h]

/-- `notify_impl` always leaves the signal at `(prev & !clear) | set`. -/
theorem notify_impl_signal (e : EventData) (clear set : Nat) :
    (e.notify_impl clear set).state.signal = newSignal e.signal clear set := by
  simp only [EventData.notify_impl]
  split
  next h => exact h
  next => split <;> rfl

/-- an index found by `position` is in range. -/
theorem position_lt_length (p : α → Bool) (l : List α) (pos : Nat)
    (h : position p l = some pos) : pos < l.length := by
  induction l generalizing pos with
  | nil => simp [position] at h
  | cons x xs ih =>
    simp only [position] at h
    split at h
    · cases h
      simp
    · match hx : position p xs with
      | none => rw [hx] at h; cases h
      | some q =>
        rw [hx] at h
        simp only [Option.map_some'] at h
        cases h
        exact Nat.succ_lt_succ (ih q hx)

/-- `position` finds nothing exactly when no element matches. -/
theorem position_eq_none (p : α → Bool) (l : List α) :
    position p l = none ↔ l.any p = false := by
  induction l with
  | nil => simp [position]
  | cons x xs ih =>
    simp only [position, List.any_cons]
    cases hpx : p x <;> simp [hpx, ih]

/-- erasing the first matching element is erasing at the index `position`
finds. -/
theorem position_eraseP (p : α → Bool) (l : List α) (pos : Nat)
    (h : position p l = some pos) : l.eraseP p = l.eraseIdx pos := by
  induction l generalizing pos with
  | nil => simp [position] at h
  | cons x xs ih =>
    simp only [position] at h
    split at h
    next hpx =>
      cases h
      simp [List.eraseP_cons_of_pos hpx]
    next hpx =>
      match hx : position p xs with
      | none => rw [hx] at h; cases h
      | some q =>
        rw [hx] at h
        simp only [Option.map_some'] at h
        cases h
        rw [List.eraseP_cons_of_neg (by simp [hpx]), List.eraseIdx_cons_succ, ih q hx]

/-- `swap_remove` pushes through a cons for a positive index. -/
theorem swapRemove_cons_cons (x y : α) (xs : List α) (pos : Nat) :
    swapRemove (x :: y :: xs) (pos + 1) = x :: swapRemove (y :: xs) pos := by
  unfold swapRemove
  rw [List.getLast?_cons_cons]
  match hx : (y :: xs).getLast? with
  | none => simp at hx
  | some last => simp

/-- `swap_remove` at an in-range index removes exactly the element at that
index, up to permutation. -/
theorem swapRemove_perm (l : List α) (pos : Nat) (h : pos < l.length) :
    (swapRemove l pos).Perm (l.eraseIdx pos) := by
  induction l generalizing pos with
  | nil => simp at h
  | cons x xs ih =>
    cases pos with
    | zero =>
      match xs with
      | [] => simp [swapRemove]
      | y :: ys =>
        have hne : (y :: ys) ≠ [] := List.cons_ne_nil _ _
        have hgl : (x :: y :: ys).getLast? = some ((y :: ys).getLast hne) := by
          rw [List.getLast?_cons_cons, List.getLast?_eq_getLast _ hne]
        simp only [swapRemove, hgl, List.dropLast_cons₂, List.set_cons_zero,
          List.eraseIdx_cons_zero]
        have hp := (List.perm_append_singleton ((y :: ys).getLast hne)
          ((y :: ys).dropLast)).symm
        rw [List.dropLast_append_getLast hne] at hp
        exact hp
    | succ pos =>
      match xs with
      | [] => simp at h
      | y :: ys =>
        rw [swapRemove_cons_cons, List.eraseIdx_cons_succ]
        exact (ih pos (by simpa using h)).cons x

/-- C1: `notify(clear, set)` leaves the signal at `(s & !clear) | set`; when
that value equals `s` or adds no bit missing from `s`, no callback fires and
the waiter list is untouched; otherwise exactly the registered waiters whose
match rule succeeds on the new signal (non-registration check) are removed,
each receiving `on_notify` exactly once with the new signal, and exactly the
non-matching waiters remain registered. -/
theorem notify_delivery (e : EventData) (clear set : Nat) :
    (e.notify_impl clear set).state.signal = newSignal e.signal clear set ∧
    (if e.signal = newSignal e.signal clear set ∨
        e.signal &&& newSignal e.signal clear set = newSignal e.signal clear set then
      (e.notify_impl clear set).calls = [] ∧
      (e.notify_impl clear set).state.waiters = e.waiters
    else
      (e.notify_impl clear set).state.waiters =
        e.waiters.filter
          (fun w => !(w.waiter_data.can_signal (newSignal e.signal clear set) false)) ∧
      (e.notify_impl clear set).calls =
        (e.waiters.filter
          (fun w => w.waiter_data.can_signal (newSignal e.signal clear set) false)).map
          (fun w => Callback.on_notify w (newSignal e.signal clear set))) := by
  refine ⟨notify_impl_signal e clear set, ?_⟩
  by_cases h1 : e.signal = newSignal e.signal clear set
  · rw [if_pos (Or.inl h1)]
    constructor
    · show (EventData.notify_impl e clear set).calls = []
      unfold EventData.notify_impl
      rw [if_pos h1]
    · show (EventData.notify_impl e clear set).state.waiters = e.waiters
      unfold EventData.notify_impl
      rw [if_pos h1]
  · by_cases h2 : e.signal &&& newSignal e.signal clear set = newSignal e.signal clear set
    · rw [if_pos (Or.inr h2)]
      constructor
      · show (EventData.notify_impl e clear set).calls = []
        unfold EventData.notify_impl
        rw [if_neg h1, if_pos h2]
      · show (EventData.notify_impl e clear set).state.waiters = e.waiters
        unfold EventData.notify_impl
        rw [if_neg h1, if_pos h2]
    · rw [if_neg (by simp [h1, h2])]
      constructor
      · show (EventData.notify_impl e clear set).state.waiters = _
        unfold EventData.notify_impl
        rw [if_neg h1, if_neg h2]
        simp [retainNotify_eq]
      · show (EventData.notify_impl e clear set).calls = _
        unfold EventData.notify_impl
        rw [if_neg h1, if_neg h2]
        simp [retainNotify_eq]

/-- C2: `wait(waiter)` on signal `s` invokes `on_notify` exactly once with
`s` and does not register the waiter when it is level-triggered with
`desired & !s == 0`; in every other case (including an edge-triggered
waiter whose condition already holds) no callback fires and the waiter is
appended to the list. -/
theorem wait_registration (e : EventData) (w : Waiter) :
    if w.waiter_data.trigger_mode = TriggerMode.Level ∧
        andNot w.waiter_data.signal e.signal = 0 then
      (e.wait_impl w).calls = [Callback.on_notify w e.signal] ∧
      (e.wait_impl w).state = e
    else
      (e.wait_impl w).calls = [] ∧
      (e.wait_impl w).state.waiters = e.waiters ++ [w] ∧
      (e.wait_impl w).state.signal = e.signal := by
  have hcs := can_signal_on_wait w.waiter_data e.signal
  by_cases hc : w.waiter_data.trigger_mode = TriggerMode.Level ∧
      andNot w.waiter_data.signal e.signal = 0
  · rw [if_pos hc]
    have ht : w.waiter_data.can_signal e.signal true = true := by
      rw [hcs]; exact decide_eq_true hc
    constructor
    · show (EventData.wait_impl e w).calls = _
      unfold EventData.wait_impl Waiter.try_on_notify
      simp [ht]
    · show (EventData.wait_impl e w).state = e
      unfold EventData.wait_impl Waiter.try_on_notify
      simp [ht]
  · rw [if_neg hc]
    have ht : w.waiter_data.can_signal e.signal true = false := by
      rw [hcs]; exact decide_eq_false hc
    refine ⟨?_, ?_, ?_⟩ <;>
      · unfold EventData.wait_impl Waiter.try_on_notify
        simp [ht]

/-- C3: a sequence of `notify(c, s)` calls leaves the signal at the
left-to-right fold of `(s & !c) | s'` over the sequence; no update is
skipped or lost. -/
theorem notify_fold (e : EventData) (l : List (Nat × Nat)) :
    (applyNotifies e l).signal =
      l.foldl (fun s c => newSignal s c.1 c.2) e.signal := by
  induction l generalizing e with
  | nil => rfl
  | cons c rest ih =>
    simp only [applyNotifies, List.foldl_cons]
    rw [ih, notify_impl_signal]

/-- C4: `unwait(w)` returns `(true, s)` and removes (exactly) the first
registered waiter with `w`'s identity when one is present, and `(false, s)`
leaving the list unchanged otherwise, where `s` is the signal at call time;
all other registered waiters remain (up to permutation) and no waiter
callback is invoked. -/
theorem unwait_removal (e : EventData) (w : Waiter) :
    (e.unwait w).calls = [] ∧
    (e.unwait w).ret.2 = e.signal ∧
    (e.unwait w).state.signal = e.signal ∧
    (if e.waiters.any (fun x => x.id == w.id) then
      (e.unwait w).ret.1 = true ∧
      ((e.unwait w).state.waiters).Perm (e.waiters.eraseP (fun x => x.id == w.id))
    else
      (e.unwait w).ret.1 = false ∧
      (e.unwait w).state.waiters = e.waiters) := by
  match hp : position (fun x => x.id == w.id) e.waiters with
  | none =>
    have hany : e.waiters.any (fun x => x.id == w.id) = false :=
      (position_eq_none _ _).mp hp
    refine ⟨?_, ?_, ?_, ?_⟩ <;>
      simp [EventData.unwait, hp, hany]
  | some pos =>
    have hany : e.waiters.any (fun x => x.id == w.id) = true := by
      cases hq : e.waiters.any (fun x => x.id == w.id) with
      | true => rfl
      | false => rw [(position_eq_none _ _).mpr hq] at hp; cases hp
    refine ⟨?_, ?_, ?_, ?_⟩
    · simp [EventData.unwait, hp]
    · simp [EventData.unwait, hp]
    · simp [EventData.unwait, hp]
    · rw [if_pos hany]
      refine ⟨by simp [EventData.unwait, hp], ?_⟩
      have hw : (e.unwait w).state.waiters = swapRemove e.waiters pos := by
        simp [EventData.unwait, hp]
      rw [hw, position_eraseP _ _ _ hp]
      exact swapRemove_perm _ _ (position_lt_length _ _ _ hp)

/-- C5: `cancel()` empties the waiter list and invokes `on_cancel` exactly
once on each waiter that was registered, all with the signal read at the
start of the call; the trace contains no `on_notify` call and no waiter
stays registered. -/
theorem cancel_takes_all (e : EventData) :
    (e.cancel).state.waiters = [] ∧
    (e.cancel).state.signal = e.signal ∧
    (e.cancel).calls = e.waiters.map (fun w => Callback.on_cancel w e.signal) := by
  exact ⟨rfl, rfl, rfl⟩

/-- C6: capability and liveness failures of the IPC syscalls: `obj_wait`
fails with `EPERM` when the object does not expose WAIT and with `EPIPE`
when its event no longer upgrades; `obj_await2` fails with `EPERM` when the
dispatcher does not expose WRITE; `disp_pop` fails with `EPERM` when the
dispatcher does not expose READ. -/
theorem syscall_capability_checks
    (space : Space) (hdl dsp : Nat) (obj dobj : Obj)
    (waitRes : Except Error (Bool × Nat)) (push : WaiterData → Nat)
    (lt : Bool) (sig : Nat) (popRes : Option (Bool × Nat × Nat))
    (hobj : space.objects hdl = some obj)
    (hdsp : space.dispatchers dsp = some dobj)
    (hh0 : hdl ≠ 0) (hd0 : dsp ≠ 0) :
    (obj.features.wait = false →
      obj_wait (some space) hdl waitRes = Except.error Error.EPERM) ∧
    (obj.features.wait = true → obj.event_alive = false →
      obj_wait (some space) hdl waitRes = Except.error Error.EPIPE) ∧
    (dobj.features.write = false →
      obj_await2 (some space) hdl lt sig dsp push = Except.error Error.EPERM) ∧
    (dobj.features.read = false →
      disp_pop (some space) dsp true true popRes = Except.error Error.EPERM) := by
  refine ⟨?_, ?_, ?_, ?_⟩
  · intro hw
    simp [obj_wait, hobj, hw]
  · intro hw ha
    simp [obj_wait, hobj, hw, ha]
  · intro hwr
    cases how : obj.features.wait <;>
      simp [obj_await2, hobj, hdsp, hh0, hd0, how, hwr]
  · intro hrd
    simp [disp_pop, hdsp, hd0, hrd]

/-- C6 witness: the checks exercised on a concrete handle space. -/
theorem syscall_capability_checks_witness :
    obj_wait (some sampleSpace) 1 (Except.ok (true, 0)) = Except.error Error.EPERM ∧
    obj_wait (some sampleSpace) 2 (Except.ok (true, 0)) = Except.error Error.EPIPE ∧
    obj_await2 (some sampleSpace) 3 true 0 4 (fun _ => 0) = Except.error Error.EPERM ∧
    disp_pop (some sampleSpace) 4 true true none = Except.error Error.EPERM := by
  refine ⟨?_, ?_, ?_, ?_⟩
  · exact (syscall_capability_checks sampleSpace 1 4 ⟨⟨false, true, true⟩, true⟩
      ⟨⟨true, false, false⟩, true⟩ (Except.ok (true, 0)) (fun _ => 0) true 0 none
      rfl rfl (by decide) (by decide)).1 rfl
  · exact (syscall_capability_checks sampleSpace 2 4 ⟨⟨true, true, true⟩, false⟩
      ⟨⟨true, false, false⟩, true⟩ (Except.ok (true, 0)) (fun _ => 0) true 0 none
      rfl rfl (by decide) (by decide)).2.1 rfl rfl
  · exact (syscall_capability_checks sampleSpace 3 4 ⟨⟨true, true, true⟩, true⟩
      ⟨⟨true, false, false⟩, true⟩ (Except.ok (true, 0)) (fun _ => 0) true 0 none
      rfl rfl (by decide) (by decide)).2.2.1 rfl
  · exact (syscall_capability_checks sampleSpace 3 4 ⟨⟨true, true, true⟩, true⟩
      ⟨⟨true, false, false⟩, true⟩ (Except.ok (true, 0)) (fun _ => 0) true 0 none
      rfl rfl (by decide) (by decide)).2.2.2 rfl

/-- C7: a step into `Exit` starts from `Ready` only (never from `Blocked`
or `Init`), and `exit(retval)` deallocates the task identity, stores
`retval` in the task's return-value cell (leaving other cells untouched),
and pushes the context onto the deferred-reclamation queue. -/
theorem exit_from_ready_only (s : TaskState) (k k' : SchedState)
    (h : TaskStep (s, k) (TaskState.exited, k')) :
    ∃ r retval, s = TaskState.ready r ∧ k' = r.exit retval k ∧
      k'.allocated_tids = k.allocated_tids.erase r.ctx.tid ∧
      k'.ret_cells r.ctx.tid = some retval ∧
      (∀ t, t ≠ r.ctx.tid → k'.ret_cells t = k.ret_cells t) ∧
      k'.ctx_dropper = k.ctx_dropper ++ [r.ctx] := by
  cases h with
  | ready_exit r retval k =>
    refine ⟨r, retval, rfl, rfl, rfl, ?_, ?_, rfl⟩
    · simp [Ready.exit]
    · intro t ht
      simp [Ready.exit, ht]

/-- C7 witness: a concrete exit step. -/
theorem exit_from_ready_only_witness :
    ∃ r retval, TaskState.ready sampleReady = TaskState.ready r ∧
      sampleReady.exit 42 sampleSched = r.exit retval sampleSched ∧
      (sampleReady.exit 42 sampleSched).allocated_tids =
        sampleSched.allocated_tids.erase r.ctx.tid ∧
      (sampleReady.exit 42 sampleSched).ret_cells r.ctx.tid = some retval ∧
      (∀ t, t ≠ r.ctx.tid →
        (sampleReady.exit 42 sampleSched).ret_cells t = sampleSched.ret_cells t) ∧
      (sampleReady.exit 42 sampleSched).ctx_dropper =
        sampleSched.ctx_dropper ++ [r.ctx] :=
  exit_from_ready_only (TaskState.ready sampleReady) sampleSched
    (sampleReady.exit 42 sampleSched)
    (TaskStep.ready_exit sampleReady 42 sampleSched)

/-- C8: `block(reason)` and `Blocked::into_ready(cpu, time_slice)` move the
context wholesale: tid, space, kstack, extended frame and runtime are
unchanged; `block` only adds the reason string, and `into_ready` changes
only the cpu field plus the scheduling fields (`running_state` set to
not-running, `time_slice` to the argument). -/
theorem block_into_ready_frame (r : Ready) (d : String) (b : Blocked) (cpu ts : Nat) :
    (r.block d).ctx = r.ctx ∧
    (r.block d).block_desc = d ∧
    (b.into_ready cpu ts).ctx.tid = b.ctx.tid ∧
    (b.into_ready cpu ts).ctx.space = b.ctx.space ∧
    (b.into_ready cpu ts).ctx.kstack = b.ctx.kstack ∧
    (b.into_ready cpu ts).ctx.ext_frame = b.ctx.ext_frame ∧
    (b.into_ready cpu ts).ctx.runtime = b.ctx.runtime ∧
    (b.into_ready cpu ts).ctx.cpu = cpu ∧
    (b.into_ready cpu ts).running_state = RunningState.NOT_RUNNING ∧
    (b.into_ready cpu ts).time_slice = ts :=
  ⟨rfl, rfl, rfl, rfl, rfl, rfl, rfl, rfl, rfl, rfl⟩

/-- C9 counterexample: at the sentinel timestamp 0, `running(0)` is not
classified as running — `start_time` yields `none` and `not_running` holds,
so the round-trip fails for that timestamp. -/
theorem running_zero_misclassified :
    (RunningState.running 0).start_time ≠ some 0 ∧
    (RunningState.running 0).not_running = true := by
  constructor
  · decide
  · decide

/-- C9 (amended): every `RunningState` satisfies exactly one of
`not_running`, `needs_resched`, `start_time = some _`; and for every
timestamp other than the two sentinel word values, `running(t)` is
classified as running with `start_time` returning `some t`. -/
theorem running_state_trichotomy (r : RunningState) (t : Int)
    (h0 : t ≠ RunningState.NOT_RUNNING_VALUE)
    (h1 : t ≠ RunningState.NEED_RESCHED_VALUE) :
    (r.not_running).toNat + (r.needs_resched).toNat +
      (r.start_time).isSome.toNat = 1 ∧
    (RunningState.running t).start_time = some t ∧
    (RunningState.running t).not_running = false ∧
    (RunningState.running t).needs_resched = false := by
  refine ⟨?_, ?_, ?_, ?_⟩
  · simp only [RunningState.not_running, RunningState.needs_resched,
      RunningState.start_time, RunningState.NOT_RUNNING_VALUE,
      RunningState.NEED_RESCHED_VALUE]
    by_cases hr0 : r.value = 0
    · rw [hr0]; decide
    · by_cases hr1 : r.value = -1
      · rw [hr1]; decide
      · simp [hr0, hr1]
  · simp [RunningState.running, RunningState.start_time, h0, h1]
  · simp [RunningState.running, RunningState.not_running, h0]
  · simp [RunningState.running, RunningState.needs_resched, h1]

/-- C9 witness: the timestamp 7 round-trips. -/
theorem running_state_trichotomy_witness :
    ((RunningState.running 7).not_running).toNat +
      ((RunningState.running 7).needs_resched).toNat +
      ((RunningState.running 7).start_time).isSome.toNat = 1 ∧
    (RunningState.running 7).start_time = some 7 ∧
    (RunningState.running 7).not_running = false ∧
    (RunningState.running 7).needs_resched = false :=
  running_state_trichotomy (RunningState.running 7) 7 (by decide) (by decide)

/-- C10: `unwait` removes by swap: when the removed waiter is not the last
element, the last waiter moves into its slot, so the list is preserved only
as a multiset minus the removed waiter, not as an ordered sequence (there
are events on which the result differs from in-place erasure). -/
theorem unwait_swap_removal (e : EventData) (w : Waiter) (pos : Nat) (lastw : Waiter)
    (hpos : position (fun x => x.id == w.id) e.waiters = some pos)
    (hne : pos + 1 < e.waiters.length)
    (hlast : e.waiters.getLast? = some lastw) :
    (e.unwait w).state.waiters = (e.waiters.dropLast).set pos lastw ∧
    ((e.unwait w).state.waiters)[pos]? = some lastw ∧
    ((e.unwait w).state.waiters).Perm (e.waiters.eraseIdx pos) ∧
    ∃ d : EventData, ∃ x : Waiter,
      ((d.unwait x).state.waiters).Perm (d.waiters.eraseP (fun y => y.id == x.id)) ∧
      (d.unwait x).state.waiters ≠ d.waiters.eraseP (fun y => y.id == x.id) := by
  have hw : (e.unwait w).state.waiters = swapRemove e.waiters pos := by
    simp [EventData.unwait, hpos]
  have hsw : swapRemove e.waiters pos = (e.waiters.dropLast).set pos lastw := by
    unfold swapRemove
    rw [hlast]
  refine ⟨by rw [hw, hsw], ?_, ?_, ?_⟩
  · rw [hw, hsw]
    exact List.getElem?_set_self (by rw [List.length_dropLast]; omega)
  · rw [hw]
    exact swapRemove_perm _ _ (by omega)
  · exact ⟨sampleEvent, sampleWaiterA, by decide, by decide⟩

/-- C10 witness: removing the first of three waiters swaps the last into
its place. -/
theorem unwait_swap_removal_witness :
    (sampleEvent.unwait sampleWaiterA).state.waiters =
      ((sampleEvent.waiters).dropLast).set 0 sampleWaiterC ∧
    ((sampleEvent.unwait sampleWaiterA).state.waiters)[0]? = some sampleWaiterC ∧
    ((sampleEvent.unwait sampleWaiterA).state.waiters).Perm
      ((sampleEvent.waiters).eraseIdx 0) ∧
    ∃ d : EventData, ∃ x : Waiter,
      ((d.unwait x).state.waiters).Perm (d.waiters.eraseP (fun y => y.id == x.id)) ∧
      (d.unwait x).state.waiters ≠ d.waiters.eraseP (fun y => y.id == x.id) :=
  unwait_swap_removal sampleEvent sampleWaiterA 0 sampleWaiterC
    (by decide) (by decide) (by decide)

end Oceanic
